import Mathlib

/-!
Verification of the filter dispatch engine and the stack-based HTML element
extractor of `lib/urlwatch/filters.py`.  Python values are shallowly embedded:
dictionaries become association lists (later entries shadow earlier ones, as
in `dict(pairs)`), compiled regular expressions become abstract predicates
`String → Bool` (the regex engine is an external collaborator), exceptions
become `Except`, and the out-of-scope black-box transforms (iCalendar
conversion, SHA-1, hex dump) are taken as function parameters.
-/

namespace Urlwatch

/-- Python `dict(pairs).get(k, None)`: build a dict from an association list
(later pairs overwrite earlier ones) and look up `k`. -/
def dget {α : Type} : List (String × α) → String → Option α
  | [], _ => none
  | kv :: rest, k =>
    match dget rest k with
    | some v => some v
    | none => if kv.1 = k then some kv.2 else none

/-- Remove every binding for key `k` from a descriptor. -/
def dremove (d : List (String × String)) (k : String) : List (String × String) :=
  d.filter (fun kv => kv.1 != k)

/-- A job descriptor: the read-only attribute mapping `job.to_dict()`. -/
abbrev JobDesc := List (String × String)

/-- The `FilterBy` enum of `filters.py`. -/
inductive FilterBy where
  | attribute
  | tag
deriving DecidableEq, Repr

/-- One event of the tokenizer feeding `html.parser.HTMLParser`:
`handle_starttag`, `handle_endtag` or `handle_data`. -/
inductive HtmlEvent where
  | startTag (tag : String) (attrs : List (String × String))
  | endTag (tag : String)
  | text (data : String)
deriving DecidableEq, Repr

/-- The mutable state of the `ElementsBy` parser: `_filter_by`, `_attributes`
(attribute mode), `_name` (tag mode), `_result`, `_inside`, `_elts`.
The stack `_elts` keeps its top at the head of the list (Python appends and
pops at the end of the array). -/
structure ElementsBy where
  filterBy : FilterBy
  attributes : List (String × Option String)
  name : String
  result : List String
  inside : Bool
  elts : List String
deriving DecidableEq, Repr

namespace ElementsBy

/-- `ElementsBy.__init__(filter_by, name, value=None)`: attribute mode stores
`{name: value}`, tag mode stores `name`; `_result = []`, `_inside = False`,
`_elts = []`. -/
def init (filterBy : FilterBy) (name : String) (value : Option String) : ElementsBy :=
  match filterBy with
  | .attribute => ⟨.attribute, [(name, value)], "", [], false, []⟩
  | .tag => ⟨.tag, [], name, [], false, []⟩

/-- Serialization of an opening tag:
`'<%s%s%s>' % (tag, ' ' if attrs else '', ' '.join('%s="%s"' % (k, v) for k, v in attrs))`. -/
def serializeStartTag (tag : String) (attrs : List (String × String)) : String :=
  "<" ++ tag ++ (if attrs.isEmpty then "" else " ") ++
    String.intercalate " " (attrs.map (fun kv => kv.1 ++ "=\x22" ++ kv.2 ++ "\x22")) ++ ">"

/-- The matching test of `handle_starttag`: attribute mode checks
`all(ad.get(k, None) == v for k, v in self._attributes.items())` on
`ad = dict(attrs)`; tag mode checks `tag == self._name`. -/
def starttagMatches (s : ElementsBy) (tag : String) (attrs : List (String × String)) : Bool :=
  match s.filterBy with
  | .attribute => s.attributes.all (fun kv => dget attrs kv.1 == kv.2)
  | .tag => tag == s.name

/-- `ElementsBy.handle_starttag`. -/
def handle_starttag (s : ElementsBy) (tag : String) (attrs : List (String × String)) : ElementsBy :=
  let s1 := if starttagMatches s tag attrs then { s with inside := true } else s
  if s1.inside then
    { s1 with result := s1.result ++ [serializeStartTag tag attrs], elts := tag :: s1.elts }
  else s1

/-- The pop loop of `handle_endtag`:
`t = self._elts.pop()` followed by `while t != tag and self._elts: t = self._elts.pop()`
(it is only entered when `tag in self._elts`, so the match is always found). -/
def popUntil : List String → String → List String
  | [], _ => []
  | t :: rest, tag => if t = tag then rest else popUntil rest tag

/-- `ElementsBy.handle_endtag`. -/
def handle_endtag (s : ElementsBy) (tag : String) : ElementsBy :=
  if s.inside then
    let s1 := { s with result := s.result ++ ["</" ++ tag ++ ">"] }
    let s2 := if tag ∈ s1.elts then { s1 with elts := popUntil s1.elts tag } else s1
    if s2.elts.isEmpty then { s2 with inside := false } else s2
  else s

/-- `ElementsBy.handle_data`. -/
def handle_data (s : ElementsBy) (data : String) : ElementsBy :=
  if s.inside then { s with result := s.result ++ [data] } else s

/-- Dispatch of one tokenizer event to the corresponding handler. -/
def processEvent (s : ElementsBy) : HtmlEvent → ElementsBy
  | .startTag tag attrs => s.handle_starttag tag attrs
  | .endTag tag => s.handle_endtag tag
  | .text data => s.handle_data data

/-- `parser.feed(data)`: run the whole token stream through the handlers. -/
def feed (s : ElementsBy) (events : List HtmlEvent) : ElementsBy :=
  events.foldl processEvent s

/-- `ElementsBy.get_html`: `''.join(self._result)`. -/
def get_html (s : ElementsBy) : String :=
  String.join s.result

end ElementsBy

/-- The extractor's state invariant: the tag stack is non-empty only while the
parser is inside a captured subtree. -/
def StackInv (s : ElementsBy) : Prop :=
  s.inside = false → s.elts = []

/-- A subfilter argument: `None`, a plain string, or an options dictionary
(the tagged union of the duck-typed `subfilter` parameter). -/
inductive Subfilter where
  | absent
  | scalar (value : String)
  | options (opts : List (String × String))
deriving DecidableEq, Repr

/-- A unit-level failure (`ValueError` raised inside one filter's `filter`),
classified by the spec's taxonomy; the payload is the exception message. -/
inductive UnitError where
  | missingArgument (msg : String)
  | unsupportedArgument (msg : String)
  | otherError (msg : String)
deriving DecidableEq, Repr

/-- A failure surfaced by the dispatch engine: the `Unknown filter kind`
`ValueError` of `FilterBase.process`, or a unit failure propagated unchanged. -/
inductive DispatchError where
  | unknownFilterKind (kind : String)
  | unitFailure (e : UnitError)
deriving DecidableEq, Repr

/-- One registered filter unit, as the dispatch engine sees it: the instance
constructed from `(state.job, state)` exposes `match()` (a predicate on the
job descriptor) and `filter(data, subfilter)`. -/
structure FilterUnit where
  matchJob : JobDesc → Bool
  filter : String → Subfilter → Except UnitError String

/-- The filter registry built by the `TrackSubClasses` metaclass:
`__subclasses__` (kind name → class) and `__anonymous_subclasses__`
(in registration order). -/
structure Registry where
  subclasses : List (String × FilterUnit)
  anonymous : List FilterUnit

/-- `sorted(cls.__subclasses__.items(), key=lambda k_v: k_v[0])`: the named
units sorted by kind name (Python's `sorted` is stable; so is insertion
sort). -/
def sortedNamed (reg : Registry) : List (String × FilterUnit) :=
  List.insertionSort (fun a b => a.1 ≤ b.1) reg.subclasses

/-- The iteration order of `FilterBase.auto_process`: sorted named units
first, then the anonymous units in registration order. -/
def orderedUnits (reg : Registry) : List FilterUnit :=
  (sortedNamed reg).map Prod.snd ++ reg.anonymous

instance : IsTotal (String × FilterUnit) (fun a b => a.1 ≤ b.1) :=
  ⟨fun a b => le_total a.1 b.1⟩

instance : IsTrans (String × FilterUnit) (fun a b => a.1 ≤ b.1) :=
  ⟨fun _ _ _ h1 h2 => le_trans h1 h2⟩

/-- The loop body of `FilterBase.auto_process`: for each unit in order, if
`filter_instance.match()` holds then `data = filter_instance.filter(data)`
(default subfilter `None`); a raised exception propagates and aborts the
rest of the chain. -/
def applyChain (job : JobDesc) : List FilterUnit → String → Except DispatchError String
  | [], data => .ok data
  | f :: rest, data =>
    if f.matchJob job then
      match f.filter data .absent with
      | .ok data2 => applyChain job rest data2
      | .error e => .error (.unitFailure e)
    else applyChain job rest data

/-- `FilterBase.auto_process(state, data)`. -/
def FilterBase.auto_process (reg : Registry) (job : JobDesc) (data : String) :
    Except DispatchError String :=
  applyChain job (orderedUnits reg) data

/-- `FilterBase.process(filter_kind, subfilter, state, data)`: look the kind up
in `__subclasses__`; raise `ValueError('Unknown filter kind: ...')` if absent,
otherwise construct the instance and call `filter(data, subfilter)` once. -/
def FilterBase.process (reg : Registry) (kind : String) (sf : Subfilter) (job : JobDesc)
    (data : String) : Except DispatchError String :=
  match dget reg.subclasses kind with
  | none => .error (.unknownFilterKind kind)
  | some f => (f.filter data sf).mapError .unitFailure

/-- `AutoMatchFilter.match`: `False` when `MATCH is None`, otherwise
`all(d.get(k, None) == v for k, v in self.MATCH.items())` on
`d = self.job.to_dict()` (the spec restricts `MATCH` values to strings). -/
def AutoMatchFilter.matchFn (MATCH : Option (List (String × String))) (d : JobDesc) : Bool :=
  match MATCH with
  | none => false
  | some m => m.all (fun kv => dget d kv.1 == some kv.2)

/-- `RegexMatchFilter.match`: `False` when `MATCH is None`, otherwise
`matches = [v.match(d[k]) for k, v in self.MATCH.items() if k in d]` and
`len(matches) > 0 and all(matches)`; a compiled pattern is embedded as the
predicate `String → Bool` it induces via `.match`. -/
def RegexMatchFilter.matchFn (MATCH : Option (List (String × (String → Bool))))
    (d : JobDesc) : Bool :=
  match MATCH with
  | none => false
  | some m =>
    let ms := m.filterMap (fun kv => (dget d kv.1).map kv.2)
    decide (0 < ms.length) && ms.all (fun b => b)

/-- `FilterBase._no_subfilters`: raise
`ValueError('No subfilters supported for {kind}')` unless the subfilter is
`None`. -/
def FilterBase.no_subfilters (kind : String) (sf : Subfilter) : Except UnitError Unit :=
  match sf with
  | .absent => .ok ()
  | _ => .error (.unsupportedArgument ("No subfilters supported for " ++ kind))

/-- `StripFilter.filter`: check `_no_subfilters`, then `data.strip()`. -/
def StripFilter.filter (data : String) (sf : Subfilter) : Except UnitError String :=
  (FilterBase.no_subfilters "strip" sf).map (fun _ => data.trim)

/-- `Ical2TextFilter.filter`: check `_no_subfilters`, then delegate to the
out-of-scope black-box `ical2text` transform, here a parameter. -/
def Ical2TextFilter.filter (ical2text : String → String) (data : String) (sf : Subfilter) :
    Except UnitError String :=
  (FilterBase.no_subfilters "ical2text" sf).map (fun _ => ical2text data)

/-- `Sha1Filter.filter`: check `_no_subfilters`, then the out-of-scope SHA-1
hex digest, here a parameter. -/
def Sha1Filter.filter (sha1hex : String → String) (data : String) (sf : Subfilter) :
    Except UnitError String :=
  (FilterBase.no_subfilters "sha1sum" sf).map (fun _ => sha1hex data)

/-- `HexdumpFilter.filter`: check `_no_subfilters`, then the out-of-scope hex
dump rendering, here a parameter. -/
def HexdumpFilter.filter (hexdump : String → String) (data : String) (sf : Subfilter) :
    Except UnitError String :=
  (FilterBase.no_subfilters "hexdump" sf).map (fun _ => hexdump data)

/-- Python `str.splitlines()` restricted to `'\n'` line boundaries: no empty
trailing line for a string ending in `'\n'`, and the empty string has no
lines. -/
def splitlines (s : String) : List String :=
  if s = "" then []
  else if s.endsWith "\n" then (s.splitOn "\n").dropLast
  else s.splitOn "\n"

/-- `GrepFilter.filter`: `None` subfilter raises
`ValueError('The grep filter needs a regular expression')`; otherwise keep the
lines where `re.search(subfilter, line) is not None` and join with `'\n'`.
`re.search` is embedded as the abstract predicate `search pattern line`; a
dict subfilter makes `re.search` itself raise, embedded as `otherError`. -/
def GrepFilter.filter (search : String → String → Bool) (data : String) (sf : Subfilter) :
    Except UnitError String :=
  match sf with
  | .absent => .error (.missingArgument "The grep filter needs a regular expression")
  | .scalar pat =>
    .ok (String.intercalate "\n" ((splitlines data).filter (fun line => search pat line)))
  | .options _ => .error (.otherError "re.search pattern must be a string")

/-- `InverseGrepFilter.filter`: like `grep` but keeps the lines where
`re.search(subfilter, line) is None`. -/
def InverseGrepFilter.filter (search : String → String → Bool) (data : String)
    (sf : Subfilter) : Except UnitError String :=
  match sf with
  | .absent => .error (.missingArgument "The inverse grep filter needs a regular expression")
  | .scalar pat =>
    .ok (String.intercalate "\n" ((splitlines data).filter (fun line => !search pat line)))
  | .options _ => .error (.otherError "re.search pattern must be a string")

/-- Modelled from the spec (claim C1 wording), for comparison with the code's
`handle_endtag`: append the closing tag, pop `tagStack` while the popped
element differs from `name` until a matching opener is found or the stack
empties, and transition to `OUTSIDE` when the stack becomes empty. -/
def ElementsBy.specEndtagStep (s : ElementsBy) (tag : String) : ElementsBy :=
  if s.inside then
    let e := ElementsBy.popUntil s.elts tag
    { s with result := s.result ++ ["</" ++ tag ++ ">"], elts := e,
             inside := if e.isEmpty then false else s.inside }
  else s

end Urlwatch

namespace Urlwatch

theorem stackInv_processEvent (s : ElementsBy) (e : HtmlEvent) (h : StackInv s) :
    StackInv (ElementsBy.processEvent s e) := by
  cases e with
  | startTag tag attrs =>
    unfold ElementsBy.processEvent ElementsBy.handle_starttag
    dsimp only
    split_ifs with h1 h2 h3 <;> intro hf <;> simp_all [StackInv]
  | endTag tag =>
    unfold ElementsBy.processEvent ElementsBy.handle_endtag
    dsimp only
    split_ifs with h1 h2 h3 <;> intro hf <;> simp_all [StackInv]
  | text data =>
    unfold ElementsBy.processEvent ElementsBy.handle_data
    dsimp only
    split_ifs with h1 <;> intro hf <;> simp_all [StackInv]

theorem stackInv_feed (s : ElementsBy) (events : List HtmlEvent) (h : StackInv s) :
    StackInv (ElementsBy.feed s events) := by
  induction events generalizing s with
  | nil => exact h
  | cons e rest ih => exact ih _ (stackInv_processEvent s e h)

theorem result_prefix_processEvent (s : ElementsBy) (e : HtmlEvent) :
    s.result <+: (ElementsBy.processEvent s e).result := by
  cases e <;>
    unfold ElementsBy.processEvent ElementsBy.handle_starttag ElementsBy.handle_endtag
      ElementsBy.handle_data <;>
    dsimp only <;> split_ifs <;> simp

theorem result_prefix_feed (s : ElementsBy) (events : List HtmlEvent) :
    s.result <+: (ElementsBy.feed s events).result := by
  induction events generalizing s with
  | nil => exact List.prefix_refl _
  | cons e rest ih =>
    exact List.IsPrefix.trans (result_prefix_processEvent s e) (ih (ElementsBy.processEvent s e))

/-- C1: the claim says `handle_endtag`, while inside, always pops the stack
until a matching opener is found or the stack empties.  The code pops only
when the closing tag's name occurs on the stack; for `endTag("span")` with
stack `["div"]` it pops nothing and stays inside, while the claim's step
empties the stack and leaves the capture. -/
theorem endtag_unmatched_close_counterexample :
    ElementsBy.handle_endtag ⟨FilterBy.tag, [], "div", ["<div>"], true, ["div"]⟩ "span" ≠
      ElementsBy.specEndtagStep ⟨FilterBy.tag, [], "div", ["<div>"], true, ["div"]⟩ "span" ∧
    (ElementsBy.handle_endtag ⟨FilterBy.tag, [], "div", ["<div>"], true, ["div"]⟩ "span").elts =
      ["div"] ∧
    (ElementsBy.handle_endtag ⟨FilterBy.tag, [], "div", ["<div>"], true, ["div"]⟩ "span").inside =
      true ∧
    (ElementsBy.specEndtagStep ⟨FilterBy.tag, [], "div", ["<div>"], true, ["div"]⟩ "span").elts =
      [] ∧
    (ElementsBy.specEndtagStep ⟨FilterBy.tag, [], "div", ["<div>"], true, ["div"]⟩ "span").inside =
      false := by
  refine ⟨?_, rfl, rfl, rfl, rfl⟩
  decide

/-- C1 (amended): while inside, `handle_endtag` appends the serialized closing
tag, and pops the stack until the matching opener is discarded only when the
closing tag's name occurs on the stack (an end tag absent from the stack pops
nothing); the parser leaves the capture exactly when the stack has become
empty. -/
theorem endtag_inside_pop_guarded (s : ElementsBy) (tag : String) (h : s.inside = true) :
    ElementsBy.handle_endtag s tag =
      { s with
        result := s.result ++ ["</" ++ tag ++ ">"],
        elts := if tag ∈ s.elts then ElementsBy.popUntil s.elts tag else s.elts,
        inside := !(if tag ∈ s.elts then ElementsBy.popUntil s.elts tag else s.elts).isEmpty } := by
  unfold ElementsBy.handle_endtag
  dsimp only
  split_ifs with h1 h2 h3 <;> simp_all

theorem endtag_inside_pop_guarded_witness :
    (⟨FilterBy.tag, [], "div", ["<div>"], true, ["div"]⟩ : ElementsBy).inside = true ∧
    ElementsBy.handle_endtag ⟨FilterBy.tag, [], "div", ["<div>"], true, ["div"]⟩ "span" =
      { (⟨FilterBy.tag, [], "div", ["<div>"], true, ["div"]⟩ : ElementsBy) with
        result := ["<div>"] ++ ["</" ++ "span" ++ ">"],
        elts := if "span" ∈ ["div"] then ElementsBy.popUntil ["div"] "span" else ["div"],
        inside := !(if "span" ∈ ["div"] then ElementsBy.popUntil ["div"] "span"
                    else ["div"]).isEmpty } :=
  ⟨rfl, endtag_inside_pop_guarded ⟨FilterBy.tag, [], "div", ["<div>"], true, ["div"]⟩ "span" rfl⟩

/-- C2: the claim says that after a matching top-level subtree closes, a later
top-level tag satisfying the criterion does not reopen capture.  On the stream
`<div id="x"></div><p id="x">second</p>` the code captures both subtrees: the
second matching start tag sets `_inside = True` again. -/
theorem second_match_reopens_counterexample :
    ElementsBy.get_html (ElementsBy.feed (ElementsBy.init .attribute "id" (some "x"))
        [.startTag "div" [("id", "x")], .endTag "div",
         .startTag "p" [("id", "x")], .text "second", .endTag "p"]) =
      "<div id=\x22x\x22></div><p id=\x22x\x22>second</p>" ∧
    ElementsBy.get_html (ElementsBy.feed (ElementsBy.init .attribute "id" (some "x"))
        [.startTag "div" [("id", "x")], .endTag "div",
         .startTag "p" [("id", "x")], .text "second", .endTag "p"]) ≠
      "<div id=\x22x\x22></div>" := by
  refine ⟨rfl, ?_⟩
  decide

/-- C2 (amended): capture is restartable within one pass: whenever the parser
is outside and a start tag satisfies the criterion, capture reopens — the tag
is pushed and its serialization appended — so every matching top-level subtree
is captured, not only the first. -/
theorem outside_match_reopens (s : ElementsBy) (tag : String) (attrs : List (String × String))
    (h : s.inside = false) (hm : ElementsBy.starttagMatches s tag attrs = true) :
    (ElementsBy.handle_starttag s tag attrs).inside = true ∧
    (ElementsBy.handle_starttag s tag attrs).result =
      s.result ++ [ElementsBy.serializeStartTag tag attrs] ∧
    (ElementsBy.handle_starttag s tag attrs).elts = tag :: s.elts := by
  unfold ElementsBy.handle_starttag
  simp [hm]

theorem outside_match_reopens_witness :
    (ElementsBy.init .attribute "id" (some "x")).inside = false ∧
    ElementsBy.starttagMatches (ElementsBy.init .attribute "id" (some "x")) "p" [("id", "x")] =
      true ∧
    (ElementsBy.handle_starttag (ElementsBy.init .attribute "id" (some "x")) "p"
        [("id", "x")]).inside = true ∧
    (ElementsBy.handle_starttag (ElementsBy.init .attribute "id" (some "x")) "p"
        [("id", "x")]).result =
      (ElementsBy.init .attribute "id" (some "x")).result ++
        [ElementsBy.serializeStartTag "p" [("id", "x")]] ∧
    (ElementsBy.handle_starttag (ElementsBy.init .attribute "id" (some "x")) "p"
        [("id", "x")]).elts = "p" :: (ElementsBy.init .attribute "id" (some "x")).elts :=
  ⟨rfl, rfl,
    outside_match_reopens (ElementsBy.init .attribute "id" (some "x")) "p" [("id", "x")] rfl rfl⟩

/-- C7: the extractor never errors on unterminated input: the accumulated
output is preserved (as a prefix) by feeding any further events, and the
unbalanced stream `startTag(div), text("A")` with a matching tag criterion
ends still inside yet yields exactly `<div>A`. -/
theorem unterminated_extraction_returns_output :
    (∀ (s : ElementsBy) (events : List HtmlEvent),
      s.result <+: (ElementsBy.feed s events).result) ∧
    (ElementsBy.feed (ElementsBy.init .tag "div" none)
        [.startTag "div" [], .text "A"]).inside = true ∧
    ElementsBy.get_html (ElementsBy.feed (ElementsBy.init .tag "div" none)
        [.startTag "div" [], .text "A"]) = "<div>A" :=
  ⟨result_prefix_feed, rfl, rfl⟩

/-- C9: during one extraction pass from a fresh state, after any token stream
the stack is non-empty only while the parser is inside (outside implies empty
stack), and every event handler only appends to the output, so fragments stay
in document order and are never reordered or deduplicated. -/
theorem stack_empty_when_outside (fb : FilterBy) (n : String) (v : Option String)
    (events : List HtmlEvent) :
    ((ElementsBy.feed (ElementsBy.init fb n v) events).inside = false →
      (ElementsBy.feed (ElementsBy.init fb n v) events).elts = []) ∧
    (∀ (s : ElementsBy) (e : HtmlEvent), s.result <+: (ElementsBy.processEvent s e).result) := by
  constructor
  · refine stackInv_feed _ events ?_
    cases fb <;> exact fun _ => rfl
  · exact result_prefix_processEvent

theorem stack_empty_when_outside_witness :
    (ElementsBy.feed (ElementsBy.init .tag "div" none)
        [.startTag "div" [], .endTag "div"]).elts = [] :=
  (stack_empty_when_outside .tag "div" none [.startTag "div" [], .endTag "div"]).1 rfl

theorem dget_dremove (d : JobDesc) (k : String) : dget (dremove d k) k = none := by
  unfold dremove
  induction d with
  | nil => rfl
  | cons kv rest ih =>
    rw [List.filter_cons]
    by_cases h : kv.1 = k
    · have hb : (kv.1 != k) = false := by simp [h]
      rw [hb, if_neg (by simp)]
      exact ih
    · have hb : (kv.1 != k) = true := by simp [h]
      rw [hb, if_pos rfl]
      unfold dget
      rw [ih]
      simp [h]

theorem nonempty_and_all_iff (l : List Bool) :
    (decide (0 < l.length) && l.all (fun b => b)) = true ↔ (l ≠ [] ∧ ∀ b ∈ l, b = true) := by
  simp [List.length_pos, List.all_eq_true]

theorem applyChain_cons (job : JobDesc) (f : FilterUnit) (rest : List FilterUnit)
    (data : String) :
    applyChain job (f :: rest) data =
      if f.matchJob job then
        match f.filter data .absent with
        | .ok data2 => applyChain job rest data2
        | .error e => .error (.unitFailure e)
      else applyChain job rest data := rfl

theorem applyChain_append (job : JobDesc) (l1 l2 : List FilterUnit) (data : String) :
    applyChain job (l1 ++ l2) data =
      (applyChain job l1 data).bind (fun d => applyChain job l2 d) := by
  induction l1 generalizing data with
  | nil => rfl
  | cons f rest ih =>
    rw [List.cons_append, applyChain_cons, applyChain_cons]
    by_cases h : f.matchJob job = true
    · rw [if_pos h, if_pos h]
      cases hf : f.filter data .absent with
      | ok d2 => simp only [hf]; exact ih d2
      | error e => simp only [hf]; rfl
    · rw [if_neg h, if_neg h]
      exact ih data

theorem applyChain_ne_unknown (job : JobDesc) (l : List FilterUnit) (data : String)
    (kind : String) : applyChain job l data ≠ .error (.unknownFilterKind kind) := by
  induction l generalizing data with
  | nil => simp [applyChain]
  | cons f rest ih =>
    rw [applyChain_cons]
    by_cases h : f.matchJob job = true
    · rw [if_pos h]
      cases hf : f.filter data .absent with
      | ok d2 => simp only [hf]; exact ih d2
      | error e => simp only [hf]; simp
    · rw [if_neg h]
      exact ih data

/-- C3: Regex-Set matching holds iff some criterion key is present in the
descriptor and every present key's pattern matches its value; consequently no
present key gives `false`, and one present-but-failing key gives `false`
regardless of the absent keys. -/
theorem regex_set_match_characterization (m : List (String × (String → Bool))) (d : JobDesc) :
    (RegexMatchFilter.matchFn (some m) d = true ↔
      ((∃ kv ∈ m, (dget d kv.1).isSome = true) ∧
        ∀ kv ∈ m, ∀ v, dget d kv.1 = some v → kv.2 v = true)) ∧
    ((∀ kv ∈ m, dget d kv.1 = none) → RegexMatchFilter.matchFn (some m) d = false) ∧
    (∀ kv ∈ m, ∀ v, dget d kv.1 = some v → kv.2 v = false →
      RegexMatchFilter.matchFn (some m) d = false) := by
  have base : RegexMatchFilter.matchFn (some m) d = true ↔
      (m.filterMap (fun kv => (dget d kv.1).map kv.2) ≠ [] ∧
        ∀ b ∈ m.filterMap (fun kv => (dget d kv.1).map kv.2), b = true) :=
    nonempty_and_all_iff _
  have hiff : RegexMatchFilter.matchFn (some m) d = true ↔
      ((∃ kv ∈ m, (dget d kv.1).isSome = true) ∧
        ∀ kv ∈ m, ∀ v, dget d kv.1 = some v → kv.2 v = true) := by
    rw [base]
    constructor
    · rintro ⟨h1, h2⟩
      constructor
      · obtain ⟨b, hb⟩ := List.exists_mem_of_ne_nil _ h1
        obtain ⟨kv, hkv, hf⟩ := List.mem_filterMap.mp hb
        obtain ⟨v, hv, _⟩ := Option.map_eq_some'.mp hf
        exact ⟨kv, hkv, by simp [hv]⟩
      · intro kv hkv v hv
        exact h2 _ (List.mem_filterMap.mpr ⟨kv, hkv, by simp [hv]⟩)
    · rintro ⟨⟨kv, hkv, hsome⟩, hall⟩
      obtain ⟨v, hv⟩ := Option.isSome_iff_exists.mp hsome
      constructor
      · intro hnil
        have hmem : kv.2 v ∈ m.filterMap (fun kv => (dget d kv.1).map kv.2) :=
          List.mem_filterMap.mpr ⟨kv, hkv, by simp [hv]⟩
        rw [hnil] at hmem
        exact List.not_mem_nil _ hmem
      · intro b hb
        obtain ⟨kv', hkv', hf⟩ := List.mem_filterMap.mp hb
        obtain ⟨v', hv', hb'⟩ := Option.map_eq_some'.mp hf
        exact hb' ▸ hall kv' hkv' v' hv'
  refine ⟨hiff, ?_, ?_⟩
  · intro hnone
    rw [Bool.eq_false_iff]
    intro htrue
    obtain ⟨⟨kv, hkv, hsome⟩, _⟩ := hiff.mp htrue
    rw [hnone kv hkv] at hsome
    exact Bool.noConfusion hsome
  · intro kv hkv v hv hfail
    rw [Bool.eq_false_iff]
    intro htrue
    have := (hiff.mp htrue).2 kv hkv v hv
    rw [hfail] at this
    exact Bool.noConfusion this

theorem regex_set_match_witness :
    RegexMatchFilter.matchFn (some [("url", fun v : String => v == "http")])
      [("url", "http")] = true ∧
    ∀ kv ∈ [("url", fun v : String => v == "http")], ∀ v,
      dget [("url", "http")] kv.1 = some v → kv.2 v = true :=
  ⟨rfl,
    ((regex_set_match_characterization [("url", fun v : String => v == "http")]
      [("url", "http")]).1.mp rfl).2⟩

/-- C4: Attribute-Equality matching holds iff every required key is present in
the descriptor with an equal value, and removing any required key's binding
from the descriptor forces the match to `false`. -/
theorem attribute_equality_match (m : List (String × String)) (d : JobDesc) :
    (AutoMatchFilter.matchFn (some m) d = true ↔ ∀ kv ∈ m, dget d kv.1 = some kv.2) ∧
    (∀ kv ∈ m, AutoMatchFilter.matchFn (some m) (dremove d kv.1) = false) := by
  have base : ∀ d' : JobDesc, AutoMatchFilter.matchFn (some m) d' = true ↔
      ∀ kv ∈ m, dget d' kv.1 = some kv.2 := by
    intro d'
    show (m.all fun kv => dget d' kv.1 == some kv.2) = true ↔ _
    simp [List.all_eq_true]
  refine ⟨base d, ?_⟩
  intro kv hkv
  rw [Bool.eq_false_iff]
  intro htrue
  have := (base _).mp htrue kv hkv
  rw [dget_dremove] at this
  exact Option.noConfusion this

theorem attribute_equality_match_witness :
    AutoMatchFilter.matchFn (some [("url", "http://x")]) [("url", "http://x")] = true ∧
    AutoMatchFilter.matchFn (some [("url", "http://x")])
      (dremove [("url", "http://x")] "url") = false :=
  ⟨rfl,
    (attribute_equality_match [("url", "http://x")] [("url", "http://x")]).2 ("url", "http://x")
      (by simp)⟩

/-- C5: auto-apply is a strict left-to-right fold over a fixed total order:
the named units sorted by kind name followed by the anonymous units; the chain
over a concatenation threads the cumulative output of the first part into the
second, a non-matching unit leaves the working content unchanged, and a
matching unit replaces it with its own output. -/
theorem auto_apply_fold_order (reg : Registry) (job : JobDesc) (data : String)
    (l1 l2 : List FilterUnit) (f : FilterUnit) (rest : List FilterUnit) :
    (FilterBase.auto_process reg job data =
      applyChain job ((sortedNamed reg).map Prod.snd ++ reg.anonymous) data) ∧
    List.Sorted (fun a b => a.1 ≤ b.1) (sortedNamed reg) ∧
    (applyChain job (l1 ++ l2) data =
      (applyChain job l1 data).bind (fun d => applyChain job l2 d)) ∧
    (f.matchJob job = false → applyChain job (f :: rest) data = applyChain job rest data) ∧
    (f.matchJob job = true →
      applyChain job (f :: rest) data =
        match f.filter data Subfilter.absent with
        | .ok data2 => applyChain job rest data2
        | .error e => .error (.unitFailure e)) := by
  refine ⟨rfl, List.sorted_insertionSort _ _, applyChain_append job l1 l2 data, ?_, ?_⟩
  · intro h
    rw [applyChain_cons, if_neg (by simp [h])]
  · intro h
    rw [applyChain_cons, if_pos h]

theorem auto_apply_fold_order_witness :
    applyChain [] [(⟨fun _ => true, fun d _ => Except.ok (d ++ "!")⟩ : FilterUnit)] "a" =
      match (⟨fun _ => true, fun d _ => Except.ok (d ++ "!")⟩ : FilterUnit).filter "a"
          Subfilter.absent with
      | .ok data2 => applyChain [] [] data2
      | .error e => .error (.unitFailure e) :=
  (auto_apply_fold_order ⟨[], []⟩ [] "a" [] []
    ⟨fun _ => true, fun d _ => Except.ok (d ++ "!")⟩ []).2.2.2.2 rfl

/-- C6: explicit dispatch of an unregistered kind fails with the
unknown-filter-kind error before any unit runs — the result does not depend on
the content, which is left untouched — and auto-apply can never produce the
unknown-filter-kind error, because it only runs registered units. -/
theorem unknown_kind_fails_before_apply (reg : Registry) (kind : String) (sf : Subfilter)
    (job : JobDesc) (data data2 : String) (h : dget reg.subclasses kind = none) :
    FilterBase.process reg kind sf job data = .error (.unknownFilterKind kind) ∧
    FilterBase.process reg kind sf job data = FilterBase.process reg kind sf job data2 ∧
    (∀ k, FilterBase.auto_process reg job data ≠ .error (.unknownFilterKind k)) := by
  refine ⟨?_, ?_, fun k => applyChain_ne_unknown job _ data k⟩ <;>
    simp [FilterBase.process, h]

theorem unknown_kind_fails_before_apply_witness :
    FilterBase.process ⟨[], []⟩ "nonexistent" Subfilter.absent [] "content" =
      .error (.unknownFilterKind "nonexistent") :=
  (unknown_kind_fails_before_apply ⟨[], []⟩ "nonexistent" Subfilter.absent [] "content"
    "other" rfl).1

/-- C8: every unit declaring "no subfilter supported" (strip, ical2text,
sha1sum, hexdump) fails with the unsupported-argument error on any non-absent
subfilter, scalar or options, and succeeds past that check when the subfilter
is absent. -/
theorem no_subfilter_units_reject_arguments (sf : Subfilter) (h : sf ≠ Subfilter.absent)
    (data : String) (ical2text sha1hex hexdump : String → String) :
    StripFilter.filter data sf =
      .error (.unsupportedArgument "No subfilters supported for strip") ∧
    Ical2TextFilter.filter ical2text data sf =
      .error (.unsupportedArgument "No subfilters supported for ical2text") ∧
    Sha1Filter.filter sha1hex data sf =
      .error (.unsupportedArgument "No subfilters supported for sha1sum") ∧
    HexdumpFilter.filter hexdump data sf =
      .error (.unsupportedArgument "No subfilters supported for hexdump") ∧
    StripFilter.filter data .absent = .ok data.trim ∧
    Ical2TextFilter.filter ical2text data .absent = .ok (ical2text data) ∧
    Sha1Filter.filter sha1hex data .absent = .ok (sha1hex data) ∧
    HexdumpFilter.filter hexdump data .absent = .ok (hexdump data) := by
  cases sf with
  | absent => exact absurd rfl h
  | scalar v => exact ⟨rfl, rfl, rfl, rfl, rfl, rfl, rfl, rfl⟩
  | options o => exact ⟨rfl, rfl, rfl, rfl, rfl, rfl, rfl, rfl⟩

theorem no_subfilter_units_reject_arguments_witness :
    StripFilter.filter "a" (Subfilter.scalar "x") =
      .error (.unsupportedArgument "No subfilters supported for strip") :=
  (no_subfilter_units_reject_arguments (Subfilter.scalar "x") (by decide) "a" id id id).1

/-- C10: grep and inverse grep partition the input lines: with a scalar
pattern they keep exactly the matching (resp. non-matching) lines, together
those keep every input line exactly once, each preserves the relative order of
its lines, and both fail with a missing-argument error on an absent
subfilter. -/
theorem grep_inverse_grep_partition (search : String → String → Bool) (p data : String) :
    GrepFilter.filter search data (.scalar p) =
      .ok (String.intercalate "\n" ((splitlines data).filter (fun line => search p line))) ∧
    InverseGrepFilter.filter search data (.scalar p) =
      .ok (String.intercalate "\n" ((splitlines data).filter (fun line => !search p line))) ∧
    List.Perm
      ((splitlines data).filter (fun line => search p line) ++
        (splitlines data).filter (fun line => !search p line))
      (splitlines data) ∧
    List.Sublist ((splitlines data).filter (fun line => search p line)) (splitlines data) ∧
    List.Sublist ((splitlines data).filter (fun line => !search p line)) (splitlines data) ∧
    GrepFilter.filter search data .absent =
      .error (.missingArgument "The grep filter needs a regular expression") ∧
    InverseGrepFilter.filter search data .absent =
      .error (.missingArgument "The inverse grep filter needs a regular expression") :=
  ⟨rfl, rfl, List.filter_append_perm _ _, List.filter_sublist _, List.filter_sublist _,
    rfl, rfl⟩

end Urlwatch
